import Mathlib

/-! Verification development for the CRUD mapping layer of the
terraform-provider-jamfpro repository: a shallow embedding of the computer
extension attribute resource handlers
(internal/resources/computerextensionattributes/computerextensionattributes_resource.go),
the advanced user search handlers and the app installer create handler
(internal/resources/appinstallers/crud.go), together with theorems about their
retry, fallback, state-update and locking behaviour.

API calls are modelled by oracles: a value (or a function from call index to a
value) describing what each SDK call would return.  Wall-clock behaviour
(time.Sleep between retries) is not modelled; only the sequence and count of
attempts is. -/

/-- Input type sub-object of a computer extension attribute.  Mirrors the SDK
struct ComputerExtensionAttributeInputType (fields Type, Platform, Script,
Choices) and, with the same field set, the nested terraform block declared in
the schema (computerextensionattributes_resource.go lines 129-161). -/
structure CEAInputType where
  type : String
  platform : String
  script : String
  choices : List String
deriving DecidableEq, Repr

/-- The SDK response object jamfpro.ComputerExtensionAttributeResponse, with
the fields the provider code reads and writes (ID, Name, Enabled, Description,
DataType, InventoryDisplay, ReconDisplay, InputType). -/
structure ComputerExtensionAttributeResponse where
  ID : Int
  Name : String
  Enabled : Bool
  Description : String
  DataType : String
  InventoryDisplay : String
  ReconDisplay : String
  InputType : CEAInputType
deriving DecidableEq, Repr

/-- The terraform state (schema.ResourceData) of one computer extension
attribute resource: the attributes of the schema at
computerextensionattributes_resource.go lines 102-175, plus the resource id
(d.Id / d.SetId).  input_type is a list holding at most one block, as in the
schema (MaxItems 1). -/
structure ResourceData where
  id : String
  name : String
  enabled : Bool
  description : String
  data_type : String
  inventory_display : String
  recon_display : String
  input_type : List CEAInputType
deriving DecidableEq, Repr

/-- An error value returned by an SDK call.  notFound records whether the
remote API reported that the resource does not exist. -/
structure ApiError where
  notFound : Bool
  msg : String
deriving DecidableEq, Repr

/-- Result of one SDK call that returns a resource pointer and an error in Go:
either a non-nil error, or a pointer that may itself be nil (none). -/
inductive ApiReply (α : Type) where
  | fail (e : ApiError)
  | ok (val : Option α)
deriving DecidableEq, Repr

/-- Severity of one terraform diagnostic (diag.Diagnostic). -/
inductive DiagSeverity where
  | diagError
  | diagWarning
deriving DecidableEq, Repr

/-- One terraform diagnostic: severity plus summary text.  Quote characters of
the Go format strings are omitted from the modelled summaries. -/
structure Diagnostic where
  severity : DiagSeverity
  summary : String
deriving DecidableEq, Repr

/-- True when a diagnostics list contains an error-severity entry
(diag.Diagnostics.HasError). -/
def hasError (diags : List Diagnostic) : Bool :=
  diags.any (fun g => g.severity = DiagSeverity.diagError)

/-- Decimal digit value of a character, none for a non-digit. -/
def digitVal (c : Char) : Option Nat :=
  if '0' ≤ c ∧ c ≤ '9' then some (c.toNat - '0'.toNat) else none

/-- Parse a non-empty run of decimal digits, failing on any other character. -/
def parseNatDigits : List Char → Nat → Option Nat
  | [], acc => some acc
  | c :: rest, acc =>
    match digitVal c with
    | none => none
    | some v => parseNatDigits rest (acc * 10 + v)

/-- Go strconv.Atoi as used on d.Id(): parse an optional sign followed by
decimal digits, failing on anything else. -/
def goAtoi (s : String) : Option Int :=
  match s.data with
  | [] => none
  | '-' :: rest =>
    match rest with
    | [] => none
    | _ :: _ => (parseNatDigits rest 0).map (fun n => -(n : Int))
  | '+' :: rest =>
    match rest with
    | [] => none
    | _ :: _ => (parseNatDigits rest 0).map (fun n => (n : Int))
  | cs => (parseNatDigits cs 0).map (fun n => (n : Int))

/-- The custom schema validation customDiffComputerExtensionAttributes
(computerextensionattributes_resource.go lines 34-88), as a function of the
input_type block list (a missing attribute is the empty list, matching the
GetOk / len check on line 37).  Returns the error message produced, or none
when validation passes. -/
def customDiffComputerExtensionAttributes (input_type : List CEAInputType) :
    Option String :=
  match input_type with
  | [] => some "input_type must be provided"
  | itm :: _ =>
    if itm.type = "script" then
      if itm.platform ≠ "Mac" ∧ itm.platform ≠ "Windows" then
        some "platform must be either Mac or Windows when input_type is script"
      else if itm.script = "" then
        some "script field must be populated when input_type is script"
      else if itm.choices.length > 0 then
        some "choices must not be populated when input_type is script"
      else none
    else if itm.type = "Pop-up Menu" then
      if itm.choices.length = 0 then
        some "choices must be populated when input_type is Pop-up Menu"
      else if itm.platform ≠ "" then
        some "platform must not be populated when input_type is Pop-up Menu"
      else if itm.script ≠ "" then
        some "script must not be populated when input_type is Pop-up Menu"
      else none
    else if itm.type = "Text Field" then
      if itm.script ≠ "" then
        some "script field must not be populated when input_type is Text Field"
      else if itm.choices.length > 0 then
        some "choices must not be populated when input_type is Text Field"
      else if itm.platform ≠ "" then
        some "platform must not be populated when input_type is Text Field"
      else none
    else none

/-- constructComputerExtensionAttribute
(computerextensionattributes_resource.go lines 181-216): build the API payload
from the configuration; returns none when the input_type list is empty (line
185).  The ID field is the Go zero value, as the construct function never sets
it. -/
def constructComputerExtensionAttribute (d : ResourceData) :
    Option ComputerExtensionAttributeResponse :=
  match d.input_type with
  | [] => none
  | itm :: _ =>
    some
      { ID := 0
        Name := d.name
        Enabled := d.enabled
        Description := d.description
        DataType := d.data_type
        InventoryDisplay := d.inventory_display
        ReconDisplay := d.recon_display
        InputType :=
          { type := itm.type
            platform := itm.platform
            script := itm.script
            choices := itm.choices } }

/-- The input_type map built by the read handler
(computerextensionattributes_resource.go lines 344-352): type, platform and
script copied from the response, choices normalised to the empty list when nil
or empty. -/
def mkInputTypeState (it : CEAInputType) : CEAInputType :=
  { type := it.type
    platform := it.platform
    script := it.script
    choices := if it.choices.isEmpty then [] else it.choices }

/-- The state-writing section of the read handler
(computerextensionattributes_resource.go lines 308-357): each string attribute
is set only when the response field is non-empty; enabled (line 315) and
input_type (line 355) are set unconditionally. -/
def updateStateFromAttribute (d : ResourceData)
    (a : ComputerExtensionAttributeResponse) : ResourceData :=
  { d with
    name := if a.Name ≠ "" then a.Name else d.name
    enabled := a.Enabled
    description := if a.Description ≠ "" then a.Description else d.description
    data_type := if a.DataType ≠ "" then a.DataType else d.data_type
    inventory_display :=
      if a.InventoryDisplay ≠ "" then a.InventoryDisplay else d.inventory_display
    recon_display :=
      if a.ReconDisplay ≠ "" then a.ReconDisplay else d.recon_display
    input_type := [mkInputTypeState a.InputType] }

/-- What one iteration of the read retry loop would observe: the reply of
GetComputerExtensionAttributeByID and the reply of
GetComputerExtensionAttributeByName for that iteration. -/
structure ReadAttemptReplies where
  byID : ApiReply ComputerExtensionAttributeResponse
  byName : ApiReply ComputerExtensionAttributeResponse
deriving DecidableEq, Repr

/-- One iteration body of the read retry loop
(computerextensionattributes_resource.go lines 288-298): fetch by ID; when
that errors or returns nil, fetch by name instead. -/
def fetchAttempt (r : ReadAttemptReplies) :
    ApiReply ComputerExtensionAttributeResponse :=
  match r.byID with
  | ApiReply.ok (some a) => ApiReply.ok (some a)
  | _ => r.byName

/-- True when a reply is a successful fetch: no error and a non-nil resource
(the break condition on line 296). -/
def replySuccess : ApiReply ComputerExtensionAttributeResponse → Bool
  | ApiReply.ok (some _) => true
  | _ => false

/-- The read retry loop (computerextensionattributes_resource.go lines
287-302): run up to `remaining` further iterations starting at iteration
index i, breaking at the first successful fetch; prev is the (err, attribute)
pair held before the next iteration, and is the loop result when the attempt
budget is exhausted. -/
def readFetchLoop (oracle : Nat → ReadAttemptReplies) :
    ApiReply ComputerExtensionAttributeResponse → Nat → Nat →
    ApiReply ComputerExtensionAttributeResponse
  | prev, _, 0 => prev
  | _, i, Nat.succ k =>
    let cur := fetchAttempt (oracle i)
    if replySuccess cur then cur else readFetchLoop oracle cur (i + 1) k

/-- The generic failure message built on line 305 of
computerextensionattributes_resource.go (quote characters omitted). -/
def readFailMessage (attributeID : Int) (n : Nat) : String :=
  "Failed to fetch attribute by both ID (" ++ toString attributeID ++
    ") and name after " ++ toString n ++ " retries"

/-- ResourceJamfProComputerExtensionAttributesRead
(computerextensionattributes_resource.go lines 274-360).  maxRetries stands
for the package constant maxReadResourceRetries; the oracle gives what each
loop iteration's API calls would return.  Returns the updated state and the
returned diagnostics (state-set calls are modelled as never failing, so the
success path returns no diagnostics). -/
def ResourceJamfProComputerExtensionAttributesRead (d : ResourceData)
    (oracle : Nat → ReadAttemptReplies) (maxRetries : Nat) :
    ResourceData × List Diagnostic :=
  match goAtoi d.id with
  | none =>
    (d, [⟨DiagSeverity.diagError, "failed to parse attribute ID"⟩])
  | some attributeID =>
    match readFetchLoop oracle (ApiReply.ok none) 0 maxRetries with
    | ApiReply.ok (some a) => (updateStateFromAttribute d a, [])
    | _ =>
      (d, [⟨DiagSeverity.diagError, readFailMessage attributeID maxRetries⟩])

/-- Warning text appended on each failed read-back attempt inside the create
handler (computerextensionattributes_resource.go line 257). -/
def createRetryWarning (n : Nat) : String :=
  "Attempted to update resource state. Resource read attempt " ++ toString n ++
    " failed. Retrying..."

/-- Warning text appended on each failed read-back attempt inside the update
handler (computerextensionattributes_resource.go line 402). -/
def updateRetryWarning (n : Nat) : String :=
  "Attempted to update resource state. Read attempt " ++ toString n ++
    " failed after update. Retrying..."

/-- The read-back retry loop shared by the create handler (lines 248-263) and
the update handler (lines 393-408) of
computerextensionattributes_resource.go: call the read handler up to
`remaining` more times (iteration index j), returning no diagnostics as soon
as one read returns none, and otherwise accumulating a warning plus the read
diagnostics per failed attempt. -/
def readBackLoop (warn : Nat → String) (readOracle : Nat → Nat → ReadAttemptReplies)
    (maxRetries : Nat) :
    ResourceData → List Diagnostic → Nat → Nat → ResourceData × List Diagnostic
  | d, diags, _, 0 => (d, diags)
  | d, diags, j, Nat.succ k =>
    match ResourceJamfProComputerExtensionAttributesRead d (readOracle j) maxRetries with
    | (d', []) => (d', [])
    | (d', readDiags) =>
      readBackLoop warn readOracle maxRetries d'
        (diags ++ ⟨DiagSeverity.diagWarning, warn (j + 1)⟩ :: readDiags) (j + 1) k

/-- ResourceJamfProComputerExtensionAttributesCreate
(computerextensionattributes_resource.go lines 224-267): construct the
payload, call CreateComputerExtensionAttribute once (createOracle gives what
the i-th call of that API would return; the handler performs exactly the
0-th), set the returned ID, then retry the read-back.  readOracle j gives the
reply oracle of the j-th read-back invocation. -/
def ResourceJamfProComputerExtensionAttributesCreate (d : ResourceData)
    (createOracle : Nat → Except ApiError ComputerExtensionAttributeResponse)
    (readOracle : Nat → Nat → ReadAttemptReplies) (maxRetries : Nat) :
    ResourceData × List Diagnostic :=
  match constructComputerExtensionAttribute d with
  | none =>
    (d, [⟨DiagSeverity.diagError,
      "failed to construct the computer extension attribute due to missing or invalid input_type"⟩])
  | some _ =>
    match createOracle 0 with
    | Except.error e => (d, [⟨DiagSeverity.diagError, e.msg⟩])
    | Except.ok created =>
      readBackLoop createRetryWarning readOracle maxRetries
        { d with id := toString created.ID } [] 0 maxRetries

/-- ResourceJamfProComputerExtensionAttributesUpdate
(computerextensionattributes_resource.go lines 363-412): construct the
payload, parse the ID, call UpdateComputerExtensionAttributeByID and on error
fall back to UpdateComputerExtensionAttributeByName, set the returned ID and
retry the read-back.  updateByID and updateByName give what each of those API
calls would return. -/
def ResourceJamfProComputerExtensionAttributesUpdate (d : ResourceData)
    (updateByID updateByName : Except ApiError ComputerExtensionAttributeResponse)
    (readOracle : Nat → Nat → ReadAttemptReplies) (maxRetries : Nat) :
    ResourceData × List Diagnostic :=
  match goAtoi d.id with
  | none =>
    (d, [⟨DiagSeverity.diagError, "failed to parse attribute ID"⟩])
  | some _ =>
    match updateByID with
    | Except.ok updated =>
      readBackLoop updateRetryWarning readOracle maxRetries
        { d with id := toString updated.ID } [] 0 maxRetries
    | Except.error _ =>
      match updateByName with
      | Except.error e => (d, [⟨DiagSeverity.diagError, e.msg⟩])
      | Except.ok updated =>
        readBackLoop updateRetryWarning readOracle maxRetries
          { d with id := toString updated.ID } [] 0 maxRetries

/-- ResourceJamfProComputerExtensionAttributesDelete
(computerextensionattributes_resource.go lines 415-452): parse the ID, call
DeleteComputerExtensionAttributeByID and on error fall back to the by-name
delete; on success clear the stored ID, on failure of both return the wrapped
error with the state unchanged.  The goroutine-and-channel plumbing of the Go
code performs exactly this sequential computation (one goroutine, one select),
so it is embedded directly.  deleteByID and deleteByName are none on success
and some error on failure. -/
def ResourceJamfProComputerExtensionAttributesDelete (d : ResourceData)
    (deleteByID deleteByName : Option ApiError) : ResourceData × List Diagnostic :=
  match goAtoi d.id with
  | none =>
    (d, [⟨DiagSeverity.diagError, "failed to parse attribute ID"⟩])
  | some _ =>
    match deleteByID with
    | none => ({ d with id := "" }, [])
    | some _ =>
      match deleteByName with
      | none => ({ d with id := "" }, [])
      | some e =>
        (d, [⟨DiagSeverity.diagError,
          "failed to delete Computer Extension Attribute: " ++ e.msg⟩])

/-- Terraform state of one advanced user search resource; only the id and the
name attribute participate in the modelled control flow. -/
structure AUSResourceData where
  id : String
  name : String
deriving DecidableEq, Repr

/-- Modelled from the spec: the helper state.HandleResourceNotFoundError (from
internal/endpoints/common/state, not present in the sources) used by the
advanced user search read handler.  Per the spec, not-found errors on read are
signaled to the caller as resource absent, causing state removal (the stored
ID is cleared and no error is returned, only a warning), and all other errors
are surfaced verbatim. -/
def HandleResourceNotFoundError (e : ApiError) (d : AUSResourceData) :
    AUSResourceData × List Diagnostic :=
  if e.notFound then
    ({ d with id := "" },
      [⟨DiagSeverity.diagWarning, "resource not found, removing from state"⟩])
  else
    (d, [⟨DiagSeverity.diagError, e.msg⟩])

/-- resourceJamfProAdvancedUserSearchRead (advancedusersearches crud source,
lines 249-266): parse the ID, call GetAdvancedUserSearchByID once, route
errors through HandleResourceNotFoundError, and on success write the response
into state through the package's updateTerraformState (abstracted as
updState, since that function is not among the sources). -/
def resourceJamfProAdvancedUserSearchRead {α : Type} (d : AUSResourceData)
    (getByID : Except ApiError α)
    (updState : AUSResourceData → α → AUSResourceData) :
    AUSResourceData × List Diagnostic :=
  match goAtoi d.id with
  | none =>
    (d, [⟨DiagSeverity.diagError, "error converting resource ID to int"⟩])
  | some _ =>
    match getByID with
    | Except.error e => HandleResourceNotFoundError e d
    | Except.ok r => (updState d r, [])

/-- What one attempt of the advanced user search delete retry loop would
observe: the error (or success, none) of DeleteAdvancedUserSearchByID and of
the fallback DeleteAdvancedUserSearchByName. -/
structure DeleteAttemptReplies where
  byID : Option ApiError
  byName : Option ApiError
deriving DecidableEq, Repr

/-- True when one delete attempt succeeds: the by-ID call succeeds, or the
by-name fallback does (advancedusersearches crud source, lines 314-322). -/
def deleteAttemptOk (r : DeleteAttemptReplies) : Bool :=
  match r.byID with
  | none => true
  | some _ => r.byName.isNone

/-- The retry.RetryContext loop of the advanced user search delete
(advancedusersearches crud source, lines 313-323): attempts run until one
succeeds; the deadline of the retry helper is modelled as the finite attempt
list being exhausted, at which point the last retryable error is surfaced. -/
def ausDeleteLoop : List DeleteAttemptReplies → Option String
  | [] => some "timeout before any delete attempt"
  | r :: rest =>
    match r.byID with
    | none => none
    | some _ =>
      match r.byName with
      | none => none
      | some e =>
        match rest with
        | [] => some e.msg
        | _ :: _ => ausDeleteLoop rest

/-- resourceJamfProAdvancedUserSearchDelete (advancedusersearches crud source,
lines 302-332): parse the ID, run the delete retry loop, and clear the stored
ID exactly on success; on failure return the wrapped error with the state
unchanged. -/
def resourceJamfProAdvancedUserSearchDelete (d : AUSResourceData)
    (attempts : List DeleteAttemptReplies) : AUSResourceData × List Diagnostic :=
  match goAtoi d.id with
  | none =>
    (d, [⟨DiagSeverity.diagError, "error converting resource ID to int"⟩])
  | some _ =>
    match ausDeleteLoop attempts with
    | some e =>
      (d, [⟨DiagSeverity.diagError,
        "failed to delete Jamf Pro Advanced User Search after retries: " ++ e⟩])
    | none => ({ d with id := "" }, [])

/-- One step of a resource handler's success-path control flow, used to state
the shared CRUD template and the locking discipline.  callCreateApi records
whether the create API call is wrapped in a retry helper. -/
inductive CreateStep where
  | lockMutex
  | unlockMutex
  | construct
  | callCreateApi (retried : Bool)
  | setId
  | readBack
  | callReadApi
  | callUpdateApi
  | callDeleteApi
  | updateState
  | clearId
deriving DecidableEq, Repr

/-- Step kinds with the retry flag erased. -/
inductive CreateStepKind where
  | lockK
  | unlockK
  | constructK
  | callCreateK
  | setIdK
  | readBackK
  | callReadK
  | callUpdateK
  | callDeleteK
  | updateStateK
  | clearIdK
deriving DecidableEq, Repr

/-- Erase the retry flag of a step. -/
def CreateStep.kind : CreateStep → CreateStepKind
  | CreateStep.lockMutex => CreateStepKind.lockK
  | CreateStep.unlockMutex => CreateStepKind.unlockK
  | CreateStep.construct => CreateStepKind.constructK
  | CreateStep.callCreateApi _ => CreateStepKind.callCreateK
  | CreateStep.setId => CreateStepKind.setIdK
  | CreateStep.readBack => CreateStepKind.readBackK
  | CreateStep.callReadApi => CreateStepKind.callReadK
  | CreateStep.callUpdateApi => CreateStepKind.callUpdateK
  | CreateStep.callDeleteApi => CreateStepKind.callDeleteK
  | CreateStep.updateState => CreateStepKind.updateStateK
  | CreateStep.clearId => CreateStepKind.clearIdK

/-- Success-path steps of the app installer create handler
(appinstallers/crud.go lines 24-53): mu.Lock, construct, create call wrapped
in retry.RetryContext, SetId, readNoCleanup, deferred mu.Unlock. -/
def appInstallerCreateSteps : List CreateStep :=
  [CreateStep.lockMutex, CreateStep.construct, CreateStep.callCreateApi true,
    CreateStep.setId, CreateStep.readBack, CreateStep.unlockMutex]

/-- Success-path steps of the advanced user search create handler
(advancedusersearches crud source, lines 206-246): construct, create call
wrapped in retry.RetryContext, SetId, read-back. -/
def advancedUserSearchCreateSteps : List CreateStep :=
  [CreateStep.construct, CreateStep.callCreateApi true, CreateStep.setId,
    CreateStep.readBack]

/-- Success-path steps of the computer extension attribute create handler
(computerextensionattributes_resource.go lines 224-267): construct, a direct
(unretried) create call, SetId, read-back (the retry loop there wraps the
read-back, not the create call). -/
def ceaCreateSteps : List CreateStep :=
  [CreateStep.construct, CreateStep.callCreateApi false, CreateStep.setId,
    CreateStep.readBack]

/-- Steps of the computer extension attribute read handler
(computerextensionattributes_resource.go lines 274-360). -/
def ceaReadSteps : List CreateStep :=
  [CreateStep.callReadApi, CreateStep.updateState]

/-- Steps of the computer extension attribute update handler
(computerextensionattributes_resource.go lines 363-412). -/
def ceaUpdateSteps : List CreateStep :=
  [CreateStep.construct, CreateStep.callUpdateApi, CreateStep.setId,
    CreateStep.readBack]

/-- Steps of the computer extension attribute delete handler
(computerextensionattributes_resource.go lines 415-452). -/
def ceaDeleteSteps : List CreateStep :=
  [CreateStep.callDeleteApi, CreateStep.clearId]

/-- Steps of the advanced user search read handler (advancedusersearches crud
source, lines 249-266). -/
def advancedUserSearchReadSteps : List CreateStep :=
  [CreateStep.callReadApi, CreateStep.updateState]

/-- Steps of the advanced user search update handler (advancedusersearches
crud source, lines 269-299). -/
def advancedUserSearchUpdateSteps : List CreateStep :=
  [CreateStep.construct, CreateStep.callUpdateApi, CreateStep.readBack]

/-- Steps of the advanced user search delete handler (advancedusersearches
crud source, lines 302-332). -/
def advancedUserSearchDeleteSteps : List CreateStep :=
  [CreateStep.callDeleteApi, CreateStep.clearId]

/-- Modelled from the spec: steps of the app installer read handler
(appinstallers/crud.go lines 56-75 delegating to common.Read, whose body is
not among the sources); per the spec all operations other than the app
installer create are plain synchronous retried calls with no lock. -/
def appInstallerReadSteps : List CreateStep :=
  [CreateStep.callReadApi, CreateStep.updateState]

/-- Modelled from the spec: steps of the app installer update handler
(appinstallers/crud.go lines 78-87 delegating to common.Update, whose body is
not among the sources); no lock per the spec. -/
def appInstallerUpdateSteps : List CreateStep :=
  [CreateStep.construct, CreateStep.callUpdateApi, CreateStep.readBack]

/-- Modelled from the spec: steps of the app installer delete handler
(appinstallers/crud.go lines 89-96 delegating to common.Delete, whose body is
not among the sources); no lock per the spec. -/
def appInstallerDeleteSteps : List CreateStep :=
  [CreateStep.callDeleteApi, CreateStep.clearId]

/-- Drop the locking steps, leaving the CRUD template portion of a handler. -/
def coreSteps (p : List CreateStep) : List CreateStep :=
  p.filter (fun s =>
    !(s == CreateStep.lockMutex) && !(s == CreateStep.unlockMutex))

/-- The four-step create template named by the spec: construct, retry-wrapped
create call, record the ID, read back. -/
def createTemplate : List CreateStep :=
  [CreateStep.construct, CreateStep.callCreateApi true, CreateStep.setId,
    CreateStep.readBack]

/-- True when a handler's step list acquires the package mutex. -/
def acquiresLock (p : List CreateStep) : Bool :=
  p.contains CreateStep.lockMutex

/-- State of n concurrent invocations of the app installer create handler
(appinstallers/crud.go): each thread's position in appInstallerCreateSteps,
and which thread (if any) currently holds the package mutex mu. -/
structure MutexSystem (n : Nat) where
  pc : Fin n → Nat
  holder : Option (Fin n)

/-- Initial system: no thread has started, the mutex is free. -/
def initSystem (n : Nat) : MutexSystem n :=
  { pc := fun _ => 0, holder := none }

/-- One interleaving step: thread t executes the next step of
appInstallerCreateSteps.  mu.Lock (crud.go line 29) only proceeds while no
thread holds the mutex, and the deferred mu.Unlock (line 30) is executed by
the holder. -/
inductive MutexStep {n : Nat} : MutexSystem n → MutexSystem n → Prop
  | exec (t : Fin n) (s : MutexSystem n) (a : CreateStep)
      (ha : appInstallerCreateSteps.get? (s.pc t) = some a)
      (hlock : a = CreateStep.lockMutex → s.holder = none)
      (hunlock : a = CreateStep.unlockMutex → s.holder = some t) :
      MutexStep s
        { pc := fun u => if u = t then s.pc t + 1 else s.pc u
          holder :=
            if a = CreateStep.lockMutex then some t
            else if a = CreateStep.unlockMutex then none
            else s.holder }

/-- Reachability from the initial system by interleaving steps. -/
def ReachableSystem {n : Nat} (s : MutexSystem n) : Prop :=
  Relation.ReflTransGen MutexStep (initSystem n) s

/-- Thread t is inside the mutex-guarded body of the create handler: past
mu.Lock (step index 0) and at most about to run the deferred mu.Unlock (step
index 5). -/
def inCritical {n : Nat} (s : MutexSystem n) (t : Fin n) : Prop :=
  1 ≤ s.pc t ∧ s.pc t ≤ 5

/-- The locking invariant: any thread inside the guarded body is the mutex
holder. -/
def LockInvariant {n : Nat} (s : MutexSystem n) : Prop :=
  ∀ t, inCritical s t → s.holder = some t

/-- Concrete computer extension attribute state used by witnesses and
counterexamples below. -/
def dEx : ResourceData :=
  { id := "7", name := "attr one", enabled := true, description := "desc",
    data_type := "String", inventory_display := "General",
    recon_display := "General",
    input_type := [{ type := "script", platform := "Mac",
                     script := "echo hi", choices := [] }] }

/-- A response whose string and input_type fields are all empty and whose
Enabled differs from the one stored in dEx. -/
def aEmptyEx : ComputerExtensionAttributeResponse :=
  { ID := 7, Name := "", Enabled := false, Description := "", DataType := "",
    InventoryDisplay := "", ReconDisplay := "",
    InputType := { type := "", platform := "", script := "", choices := [] } }

/-- A fully populated response as returned by a successful create. -/
def aCreatedEx : ComputerExtensionAttributeResponse :=
  { ID := 7, Name := "attr one", Enabled := true, Description := "desc",
    DataType := "String", InventoryDisplay := "General",
    ReconDisplay := "General",
    InputType := { type := "script", platform := "Mac",
                   script := "echo hi", choices := [] } }

/-- A response with a new non-empty name and an empty description. -/
def aMixEx : ComputerExtensionAttributeResponse :=
  { ID := 7, Name := "renamed", Enabled := true, Description := "",
    DataType := "", InventoryDisplay := "", ReconDisplay := "",
    InputType := { type := "script", platform := "Mac",
                   script := "echo hi", choices := [] } }

/-- A transient (non-not-found) API error. -/
def transientErr : ApiError := { notFound := false, msg := "transient" }

/-- Replies where both fetches report not-found. -/
def notFoundReplies : ReadAttemptReplies :=
  { byID := ApiReply.fail { notFound := true, msg := "resource gone" },
    byName := ApiReply.fail { notFound := true, msg := "resource gone" } }

/-- Replies where both fetches fail with a distinctive transient error. -/
def boomReplies : ReadAttemptReplies :=
  { byID := ApiReply.fail { notFound := false, msg := "boom" },
    byName := ApiReply.fail { notFound := false, msg := "boom" } }

/-- Replies where the by-ID fetch succeeds. -/
def goodReplies : ReadAttemptReplies :=
  { byID := ApiReply.ok (some aCreatedEx),
    byName := ApiReply.ok (some aCreatedEx) }

/-- Create-call oracle failing on the first call and succeeding on any later
call. -/
def createOracleEx : Nat → Except ApiError ComputerExtensionAttributeResponse :=
  fun i => if i = 0 then Except.error transientErr else Except.ok aCreatedEx

/-- Read oracle whose every fetch succeeds. -/
def goodReadOracle : Nat → Nat → ReadAttemptReplies := fun _ _ => goodReplies

/-- Read oracle whose every fetch fails. -/
def badReadOracle : Nat → Nat → ReadAttemptReplies := fun _ _ => boomReplies

/-- Concrete advanced user search state. -/
def ausEx : AUSResourceData := { id := "9", name := "search one" }

/-- If the value held before the loop is not a successful fetch and every
remaining attempt fails, the read retry loop does not produce a successful
fetch. -/
theorem readFetchLoop_not_success (oracle : Nat → ReadAttemptReplies) :
    ∀ (k i : Nat) (prev : ApiReply ComputerExtensionAttributeResponse),
      replySuccess prev = false →
      (∀ j, j < k → replySuccess (fetchAttempt (oracle (i + j))) = false) →
      replySuccess (readFetchLoop oracle prev i k) = false := by
  intro k
  induction k with
  | zero =>
    intro i prev hp _
    simpa [readFetchLoop] using hp
  | succ m ih =>
    intro i prev hp hall
    have h0 : replySuccess (fetchAttempt (oracle i)) = false := by
      simpa using hall 0 (Nat.succ_pos m)
    simp only [readFetchLoop, h0, Bool.false_eq_true, if_false]
    exact ih (i + 1) (fetchAttempt (oracle i)) h0 (fun j hj => by
      have h := hall (j + 1) (by omega)
      have he : i + (j + 1) = i + 1 + j := by omega
      rw [he] at h
      exact h)

/-- If some attempt within the budget succeeds, the read retry loop produces a
successful fetch. -/
theorem readFetchLoop_success (oracle : Nat → ReadAttemptReplies) :
    ∀ (k i : Nat) (prev : ApiReply ComputerExtensionAttributeResponse),
      (∃ j, j < k ∧ replySuccess (fetchAttempt (oracle (i + j))) = true) →
      replySuccess (readFetchLoop oracle prev i k) = true := by
  intro k
  induction k with
  | zero =>
    rintro i prev ⟨j, hj, _⟩
    omega
  | succ m ih =>
    intro i prev hex
    by_cases h0 : replySuccess (fetchAttempt (oracle i)) = true
    · simp only [readFetchLoop, h0, if_true]
    · have h0' : replySuccess (fetchAttempt (oracle i)) = false := by
        cases hval : replySuccess (fetchAttempt (oracle i)) with
        | true => exact absurd hval h0
        | false => rfl
      simp only [readFetchLoop, h0', Bool.false_eq_true, if_false]
      obtain ⟨j, hj, hs⟩ := hex
      have hj0 : j ≠ 0 := by
        intro hz
        subst hz
        rw [Nat.add_zero] at hs
        exact h0 hs
      refine ih (i + 1) (fetchAttempt (oracle i)) ⟨j - 1, by omega, ?_⟩
      have he : i + 1 + (j - 1) = i + j := by omega
      rw [he]
      exact hs

/-- When the very first attempt fetches successfully, the loop returns that
fetch. -/
theorem readFetchLoop_first (oracle : Nat → ReadAttemptReplies)
    (prev : ApiReply ComputerExtensionAttributeResponse) (k : Nat)
    (a : ComputerExtensionAttributeResponse)
    (h0 : fetchAttempt (oracle 0) = ApiReply.ok (some a)) :
    readFetchLoop oracle prev 0 (k + 1) = ApiReply.ok (some a) := by
  simp [readFetchLoop, h0, replySuccess]

/-- A read whose loop ends in a successful fetch writes the fetched attribute
into the state and returns no diagnostics. -/
theorem ceaRead_success (d : ResourceData) (oracle : Nat → ReadAttemptReplies)
    (N : Nat) (m : Int) (a : ComputerExtensionAttributeResponse)
    (hid : goAtoi d.id = some m)
    (hloop : readFetchLoop oracle (ApiReply.ok none) 0 N = ApiReply.ok (some a)) :
    ResourceJamfProComputerExtensionAttributesRead d oracle N =
      (updateStateFromAttribute d a, []) := by
  simp [ResourceJamfProComputerExtensionAttributesRead, hid, hloop]

/-- A read all of whose attempts fail leaves the state unchanged and returns
the generic failure diagnostic. -/
theorem ceaRead_all_fail (d : ResourceData) (oracle : Nat → ReadAttemptReplies)
    (N : Nat) (m : Int) (hid : goAtoi d.id = some m)
    (hall : ∀ j, j < N → replySuccess (fetchAttempt (oracle j)) = false) :
    ResourceJamfProComputerExtensionAttributesRead d oracle N =
      (d, [⟨DiagSeverity.diagError, readFailMessage m N⟩]) := by
  have hfail : replySuccess (readFetchLoop oracle (ApiReply.ok none) 0 N) = false :=
    readFetchLoop_not_success oracle N 0 (ApiReply.ok none) rfl
      (fun j hj => by simpa using hall j hj)
  cases hloop : readFetchLoop oracle (ApiReply.ok none) 0 N with
  | fail e =>
    simp [ResourceJamfProComputerExtensionAttributesRead, hid, hloop]
  | ok v =>
    cases v with
    | none => simp [ResourceJamfProComputerExtensionAttributesRead, hid, hloop]
    | some a =>
      rw [hloop] at hfail
      simp [replySuccess] at hfail

/-- The read returns an error diagnostic exactly when every attempt within the
budget fails. -/
theorem ceaRead_hasError_iff (d : ResourceData) (oracle : Nat → ReadAttemptReplies)
    (N : Nat) (m : Int) (hid : goAtoi d.id = some m) :
    hasError (ResourceJamfProComputerExtensionAttributesRead d oracle N).2 = true ↔
      ∀ j, j < N → replySuccess (fetchAttempt (oracle j)) = false := by
  constructor
  · intro herr j hj
    cases hval : replySuccess (fetchAttempt (oracle j)) with
    | false => rfl
    | true =>
      have hsucc : replySuccess (readFetchLoop oracle (ApiReply.ok none) 0 N) = true :=
        readFetchLoop_success oracle N 0 (ApiReply.ok none)
          ⟨j, hj, by simpa using hval⟩
      cases hloop : readFetchLoop oracle (ApiReply.ok none) 0 N with
      | fail e =>
        rw [hloop] at hsucc
        simp [replySuccess] at hsucc
      | ok v =>
        cases v with
        | none =>
          rw [hloop] at hsucc
          simp [replySuccess] at hsucc
        | some a =>
          rw [ceaRead_success d oracle N m a hid hloop] at herr
          simp [hasError] at herr
  · intro hall
    rw [ceaRead_all_fail d oracle N m hid hall]
    simp [hasError]

/-- Writing the same response into the state twice equals writing it once. -/
theorem updateState_idem (d : ResourceData) (a : ComputerExtensionAttributeResponse) :
    updateStateFromAttribute (updateStateFromAttribute d a) a =
      updateStateFromAttribute d a := by
  unfold updateStateFromAttribute
  by_cases h1 : a.Name = "" <;> by_cases h2 : a.Description = "" <;>
    by_cases h3 : a.DataType = "" <;> by_cases h4 : a.InventoryDisplay = "" <;>
      by_cases h5 : a.ReconDisplay = "" <;> simp [h1, h2, h3, h4, h5]

/-- The advanced user search delete loop succeeds exactly when some attempt in
the budget succeeds. -/
theorem ausDeleteLoop_none_iff (l : List DeleteAttemptReplies) :
    ausDeleteLoop l = none ↔ l.any deleteAttemptOk = true := by
  induction l with
  | nil => simp [ausDeleteLoop]
  | cons r rest ih =>
    cases hb : r.byID with
    | none => simp [ausDeleteLoop, hb, deleteAttemptOk, List.any_cons]
    | some e1 =>
      cases hn : r.byName with
      | none => simp [ausDeleteLoop, hb, hn, deleteAttemptOk, List.any_cons]
      | some e2 =>
        cases rest with
        | nil => simp [ausDeleteLoop, hb, hn, deleteAttemptOk]
        | cons r2 rest2 =>
          simp only [ausDeleteLoop, hb, hn, List.any_cons, deleteAttemptOk,
            Option.isNone_some, Bool.false_or]
          exact ih

/-- The initial system satisfies the locking invariant. -/
theorem lockInvariant_init (n : Nat) : LockInvariant (initSystem n) := by
  intro t ht
  obtain ⟨h1, _⟩ := ht
  simp [initSystem] at h1

/-- One interleaving step preserves the locking invariant. -/
theorem lockInvariant_step {n : Nat} {s₁ s₂ : MutexSystem n}
    (hstep : MutexStep s₁ s₂) (hs : LockInvariant s₁) : LockInvariant s₂ := by
  cases hstep with
  | exec t s a ha hlock hunlock =>
    intro u hu
    dsimp only [inCritical] at hu ⊢
    by_cases htu : u = t
    · subst htu
      rw [if_pos rfl] at hu
      obtain ⟨h1, h2⟩ := hu
      have hcases : s₁.pc u = 0 ∨ s₁.pc u = 1 ∨ s₁.pc u = 2 ∨ s₁.pc u = 3 ∨
          s₁.pc u = 4 := by omega
      rcases hcases with h | h | h | h | h <;> rw [h] at ha <;>
          simp only [appInstallerCreateSteps, List.get?, Option.some.injEq] at ha <;>
          subst ha
      · simp
      · have hc : inCritical s₁ u := by
          unfold inCritical
          omega
        have hh := hs u hc
        simp [hh]
      · have hc : inCritical s₁ u := by
          unfold inCritical
          omega
        have hh := hs u hc
        simp [hh]
      · have hc : inCritical s₁ u := by
          unfold inCritical
          omega
        have hh := hs u hc
        simp [hh]
      · have hc : inCritical s₁ u := by
          unfold inCritical
          omega
        have hh := hs u hc
        simp [hh]
    · rw [if_neg htu] at hu
      have hh := hs u hu
      by_cases hal : a = CreateStep.lockMutex
      · have h2 := hlock hal
        rw [hh] at h2
        simp at h2
      · by_cases hau : a = CreateStep.unlockMutex
        · have h3 := hunlock hau
          rw [hh] at h3
          exact absurd (Option.some.inj h3) htu
        · rw [if_neg hal, if_neg hau]
          exact hh

/-- Every reachable system satisfies the locking invariant. -/
theorem lockInvariant_reachable {n : Nat} {s : MutexSystem n}
    (h : ReachableSystem s) : LockInvariant s := by
  unfold ReachableSystem at h
  induction h with
  | refl => exact lockInvariant_init n
  | tail _ hstep ih => exact lockInvariant_step hstep ih

/-- Claim C8: the custom-diff validation for computer extension attributes
returns an error exactly when the input_type list is missing or empty; or the
type is script and the platform is neither Mac nor Windows, or the script is
empty, or choices is non-empty; or the type is Pop-up Menu and choices is
empty, or platform is non-empty, or script is non-empty; or the type is Text
Field and script, choices or platform is non-empty.  Any other type, such as
LDAP Mapping, passes with no field constraints. -/
theorem C8_customDiff_error_iff (l : List CEAInputType) :
    (customDiffComputerExtensionAttributes l).isSome = true ↔
      (l = [] ∨ ∃ itm0 rest0, l = itm0 :: rest0 ∧
        ((itm0.type = "script" ∧
            ((itm0.platform ≠ "Mac" ∧ itm0.platform ≠ "Windows") ∨
              itm0.script = "" ∨ itm0.choices ≠ [])) ∨
          (itm0.type = "Pop-up Menu" ∧
            (itm0.choices = [] ∨ itm0.platform ≠ "" ∨ itm0.script ≠ "")) ∨
          (itm0.type = "Text Field" ∧
            (itm0.script ≠ "" ∨ itm0.choices ≠ [] ∨ itm0.platform ≠ "")))) := by
  cases l with
  | nil => simp [customDiffComputerExtensionAttributes]
  | cons itm rest =>
    simp only [customDiffComputerExtensionAttributes, List.cons.injEq,
      List.cons_ne_nil, false_or]
    split_ifs with h1 h2 h3 h4 h5 h6 h7 h8 h9 h10 h11 h12 <;>
      simp_all [List.length_eq_zero, List.length_pos]

/-- Counterexample to claim C1: the computer extension attribute read, facing
a remote not-found on every fetch, returns an ordinary error diagnostic and
leaves the stored ID 7 in the state instead of clearing it. -/
theorem C1_counterexample :
    ResourceJamfProComputerExtensionAttributesRead dEx (fun _ => notFoundReplies) 1 =
      (dEx, [⟨DiagSeverity.diagError, readFailMessage 7 1⟩]) ∧
    dEx.id = "7" ∧
    hasError [⟨DiagSeverity.diagError, readFailMessage 7 1⟩] = true := by
  refine ⟨?_, rfl, rfl⟩
  rfl

/-- Claim C1 (amended): on a not-found error the advanced user search read
signals resource absent, clearing the stored ID and returning only a warning,
and surfaces other errors verbatim; the computer extension attribute read
instead treats not-found like any other failure, returning the generic error
diagnostic after its retry budget with the state, including the stored ID,
unchanged. -/
theorem C1_read_not_found {α : Type} (dA : AUSResourceData) (e e2 : ApiError)
    (upd : AUSResourceData → α → AUSResourceData) (mA : Int)
    (hidA : goAtoi dA.id = some mA) (hnf : e.notFound = true)
    (hnf2 : e2.notFound = false)
    (d : ResourceData) (oracle : Nat → ReadAttemptReplies) (N : Nat) (m : Int)
    (hid : goAtoi d.id = some m)
    (hall : ∀ j, j < N → replySuccess (fetchAttempt (oracle j)) = false) :
    resourceJamfProAdvancedUserSearchRead dA (Except.error e) upd =
      ({ dA with id := "" },
        [⟨DiagSeverity.diagWarning, "resource not found, removing from state"⟩]) ∧
    resourceJamfProAdvancedUserSearchRead dA (Except.error e2) upd =
      (dA, [⟨DiagSeverity.diagError, e2.msg⟩]) ∧
    ResourceJamfProComputerExtensionAttributesRead d oracle N =
      (d, [⟨DiagSeverity.diagError, readFailMessage m N⟩]) := by
  refine ⟨?_, ?_, ceaRead_all_fail d oracle N m hid hall⟩
  · simp [resourceJamfProAdvancedUserSearchRead, hidA,
      HandleResourceNotFoundError, hnf]
  · simp [resourceJamfProAdvancedUserSearchRead, hidA,
      HandleResourceNotFoundError, hnf2]

/-- Witness for claim C1 at concrete inputs. -/
theorem C1_read_not_found_witness :
    resourceJamfProAdvancedUserSearchRead ausEx
        (Except.error { notFound := true, msg := "resource gone" })
        (fun (d : AUSResourceData) (_ : Unit) => d) =
      ({ ausEx with id := "" },
        [⟨DiagSeverity.diagWarning, "resource not found, removing from state"⟩]) ∧
    ResourceJamfProComputerExtensionAttributesRead dEx (fun _ => notFoundReplies) 2 =
      (dEx, [⟨DiagSeverity.diagError, readFailMessage 7 2⟩]) := by
  have h := C1_read_not_found ausEx { notFound := true, msg := "resource gone" }
      transientErr (fun (d : AUSResourceData) (_ : Unit) => d) 9 rfl rfl rfl dEx
      (fun _ => notFoundReplies) 2 7 rfl (fun _ _ => rfl)
  exact ⟨h.1, h.2.2⟩

/-- Counterexample to claim C2: for a successful read whose response carries
an input_type block with every field empty, the input_type block stored in the
state is still overwritten, and the enabled flag is overwritten as well even
though a boolean carries no presence information. -/
theorem C2_counterexample :
    aEmptyEx.InputType.script = "" ∧ aEmptyEx.InputType.platform = "" ∧
    (updateStateFromAttribute dEx aEmptyEx).input_type ≠ dEx.input_type ∧
    (updateStateFromAttribute dEx aEmptyEx).enabled ≠ dEx.enabled := by
  refine ⟨rfl, rfl, ?_, ?_⟩ <;> decide

/-- Claim C2 (amended): on a successful read, each of the five string
attributes (name, description, data_type, inventory_display, recon_display)
is overwritten exactly when the corresponding response field is non-empty and
kept otherwise; enabled and input_type are overwritten unconditionally (with
nil choices normalised to an empty list), and the stored ID is unchanged. -/
theorem C2_read_state_frame (d : ResourceData)
    (a : ComputerExtensionAttributeResponse) :
    (a.Name = "" → (updateStateFromAttribute d a).name = d.name) ∧
    (a.Name ≠ "" → (updateStateFromAttribute d a).name = a.Name) ∧
    (a.Description = "" →
      (updateStateFromAttribute d a).description = d.description) ∧
    (a.Description ≠ "" →
      (updateStateFromAttribute d a).description = a.Description) ∧
    (a.DataType = "" → (updateStateFromAttribute d a).data_type = d.data_type) ∧
    (a.DataType ≠ "" → (updateStateFromAttribute d a).data_type = a.DataType) ∧
    (a.InventoryDisplay = "" →
      (updateStateFromAttribute d a).inventory_display = d.inventory_display) ∧
    (a.InventoryDisplay ≠ "" →
      (updateStateFromAttribute d a).inventory_display = a.InventoryDisplay) ∧
    (a.ReconDisplay = "" →
      (updateStateFromAttribute d a).recon_display = d.recon_display) ∧
    (a.ReconDisplay ≠ "" →
      (updateStateFromAttribute d a).recon_display = a.ReconDisplay) ∧
    (updateStateFromAttribute d a).enabled = a.Enabled ∧
    (updateStateFromAttribute d a).input_type = [mkInputTypeState a.InputType] ∧
    (updateStateFromAttribute d a).id = d.id := by
  refine ⟨?_, ?_, ?_, ?_, ?_, ?_, ?_, ?_, ?_, ?_, rfl, rfl, rfl⟩ <;>
    intro h <;> simp [updateStateFromAttribute, h]

/-- Witness for claim C2: the non-empty response name overwrites the stored
name while the empty response description leaves the stored one unchanged. -/
theorem C2_read_state_frame_witness :
    (updateStateFromAttribute dEx aMixEx).name = "renamed" ∧
    (updateStateFromAttribute dEx aMixEx).description = "desc" := by
  have h := C2_read_state_frame dEx aMixEx
  exact ⟨h.2.1 (by decide), h.2.2.1 rfl⟩

/-- Counterexample to claim C3: the computer extension attribute create calls
the create API exactly once, with no retry loop around it; with an attempt
budget of 3 and an oracle whose first call fails transiently but whose second
call would succeed, the create still fails immediately with the first error. -/
theorem C3_counterexample :
    ResourceJamfProComputerExtensionAttributesCreate dEx createOracleEx
        goodReadOracle 3 =
      (dEx, [⟨DiagSeverity.diagError, "transient"⟩]) ∧
    createOracleEx 1 = Except.ok aCreatedEx :=
  ⟨rfl, rfl⟩

/-- Claim C3 (amended): the computer extension attribute read retries with a
fixed attempt count, failing exactly when all attempts in the budget fail; the
create handler issues its create API call once and surfaces a first transient
failure immediately instead of retrying it (its retry loop wraps only the
read-back). -/
theorem C3_retry_budget (d : ResourceData) (oracle : Nat → ReadAttemptReplies)
    (N : Nat) (m : Int) (hid : goAtoi d.id = some m)
    (d2 : ResourceData)
    (co : Nat → Except ApiError ComputerExtensionAttributeResponse)
    (ro : Nat → Nat → ReadAttemptReplies) (N2 : Nat) (e : ApiError)
    (itm : CEAInputType) (rest : List CEAInputType)
    (hit : d2.input_type = itm :: rest) (hco : co 0 = Except.error e) :
    (hasError (ResourceJamfProComputerExtensionAttributesRead d oracle N).2 = true ↔
      ∀ j, j < N → replySuccess (fetchAttempt (oracle j)) = false) ∧
    ResourceJamfProComputerExtensionAttributesCreate d2 co ro N2 =
      (d2, [⟨DiagSeverity.diagError, e.msg⟩]) := by
  refine ⟨ceaRead_hasError_iff d oracle N m hid, ?_⟩
  simp [ResourceJamfProComputerExtensionAttributesCreate,
    constructComputerExtensionAttribute, hit, hco]

/-- Witness for claim C3 at concrete inputs. -/
theorem C3_retry_budget_witness :
    hasError (ResourceJamfProComputerExtensionAttributesRead dEx
        (fun _ => notFoundReplies) 1).2 = true ∧
    ResourceJamfProComputerExtensionAttributesCreate dEx createOracleEx
        goodReadOracle 4 =
      (dEx, [⟨DiagSeverity.diagError, "transient"⟩]) := by
  have h := C3_retry_budget dEx (fun _ => notFoundReplies) 1 7 rfl dEx createOracleEx
      goodReadOracle 4 transientErr
      { type := "script", platform := "Mac", script := "echo hi", choices := [] }
      [] rfl rfl
  exact ⟨h.1.mpr (fun _ _ => rfl), h.2⟩

/-- Counterexample to claim C4: with both fetches of both read attempts
failing with the transient error boom, the read surfaces the generic failure
message naming the ID and retry count, not the last attempt's error boom. -/
theorem C4_counterexample :
    ResourceJamfProComputerExtensionAttributesRead dEx (fun _ => boomReplies) 2 =
      (dEx, [⟨DiagSeverity.diagError, readFailMessage 7 2⟩]) ∧
    readFailMessage 7 2 ≠ "boom" := by
  refine ⟨rfl, ?_⟩
  decide

/-- Claim C4 (amended): after all attempts in the budget fail, the read
returns the generic failure diagnostic naming the parsed ID and the retry
count; the result is the same whatever errors the individual attempts
produced, so the last attempt's error is not what is surfaced. -/
theorem C4_read_last_error (d : ResourceData)
    (oracle oracle2 : Nat → ReadAttemptReplies) (N : Nat) (m : Int)
    (hid : goAtoi d.id = some m)
    (hall : ∀ j, j < N → replySuccess (fetchAttempt (oracle j)) = false)
    (hall2 : ∀ j, j < N → replySuccess (fetchAttempt (oracle2 j)) = false) :
    ResourceJamfProComputerExtensionAttributesRead d oracle N =
      (d, [⟨DiagSeverity.diagError, readFailMessage m N⟩]) ∧
    ResourceJamfProComputerExtensionAttributesRead d oracle N =
      ResourceJamfProComputerExtensionAttributesRead d oracle2 N := by
  have h1 := ceaRead_all_fail d oracle N m hid hall
  have h2 := ceaRead_all_fail d oracle2 N m hid hall2
  exact ⟨h1, by rw [h1, h2]⟩

/-- Witness for claim C4 at concrete inputs: two oracles failing with
different errors produce the identical generic result. -/
theorem C4_read_last_error_witness :
    ResourceJamfProComputerExtensionAttributesRead dEx (fun _ => boomReplies) 1 =
      (dEx, [⟨DiagSeverity.diagError, readFailMessage 7 1⟩]) ∧
    ResourceJamfProComputerExtensionAttributesRead dEx (fun _ => boomReplies) 1 =
      ResourceJamfProComputerExtensionAttributesRead dEx
        (fun _ => notFoundReplies) 1 :=
  C4_read_last_error dEx (fun _ => boomReplies) (fun _ => notFoundReplies) 1 7 rfl
    (fun _ _ => rfl) (fun _ _ => rfl)

/-- Counterexample to claim C5: the computer extension attribute create does
not match the template of a retry-wrapped create call; its step list carries a
direct create call, so it differs from the four-step template. -/
theorem C5_counterexample :
    coreSteps ceaCreateSteps ≠ createTemplate ∧
    ceaCreateSteps.contains (CreateStep.callCreateApi false) = true := by
  decide

/-- Claim C5 (amended): all three create handlers perform construct, create
call, record ID, read-back in that order (after dropping the mutex steps of
the app installer handler); the app installer and advanced user search
handlers wrap the create call in a retry helper and so match the template
exactly, while the computer extension attribute handler issues a direct create
call and retries only its read-back. -/
theorem C5_create_template :
    coreSteps appInstallerCreateSteps = createTemplate ∧
    coreSteps advancedUserSearchCreateSteps = createTemplate ∧
    (coreSteps ceaCreateSteps).map CreateStep.kind =
      createTemplate.map CreateStep.kind ∧
    coreSteps ceaCreateSteps ≠ createTemplate := by
  decide

/-- Claim C6: with the remote attribute unchanged (the first fetch of every
read returns the same response), a read after the create's read-back returns
exactly the state the read-back produced: reading twice equals reading once,
so no attribute value changes. -/
theorem C6_read_idempotent (d : ResourceData)
    (a : ComputerExtensionAttributeResponse) (oracle : Nat → ReadAttemptReplies)
    (N : Nat) (m : Int) (k : Nat) (hN : N = k + 1) (hid : goAtoi d.id = some m)
    (h0 : fetchAttempt (oracle 0) = ApiReply.ok (some a)) :
    ResourceJamfProComputerExtensionAttributesRead d oracle N =
      (updateStateFromAttribute d a, []) ∧
    ResourceJamfProComputerExtensionAttributesRead
        (updateStateFromAttribute d a) oracle N =
      (updateStateFromAttribute d a, []) := by
  subst hN
  have hloop := readFetchLoop_first oracle (ApiReply.ok none) k a h0
  constructor
  · exact ceaRead_success d oracle (k + 1) m a hid hloop
  · have hid2 : goAtoi (updateStateFromAttribute d a).id = some m := hid
    have h2 := ceaRead_success (updateStateFromAttribute d a) oracle (k + 1) m a
      hid2 hloop
    rw [h2, updateState_idem]

/-- Witness for claim C6 at concrete inputs. -/
theorem C6_read_idempotent_witness :
    ResourceJamfProComputerExtensionAttributesRead dEx (fun _ => goodReplies) 1 =
      (updateStateFromAttribute dEx aCreatedEx, []) ∧
    ResourceJamfProComputerExtensionAttributesRead
        (updateStateFromAttribute dEx aCreatedEx) (fun _ => goodReplies) 1 =
      (updateStateFromAttribute dEx aCreatedEx, []) :=
  C6_read_idempotent dEx aCreatedEx (fun _ => goodReplies) 1 7 0 rfl rfl rfl

/-- Claim C7: in any reachable interleaving of concurrent app installer create
invocations at most one invocation is inside the mutex-guarded body at a time,
and among all modelled handler step lists only the app installer create
acquires a lock. -/
theorem C7_single_mutex :
    (∀ (n : Nat) (s : MutexSystem n), ReachableSystem s →
      ∀ t u : Fin n, inCritical s t → inCritical s u → t = u) ∧
    acquiresLock appInstallerCreateSteps = true ∧
    acquiresLock advancedUserSearchCreateSteps = false ∧
    acquiresLock ceaCreateSteps = false ∧
    acquiresLock ceaReadSteps = false ∧
    acquiresLock ceaUpdateSteps = false ∧
    acquiresLock ceaDeleteSteps = false ∧
    acquiresLock advancedUserSearchReadSteps = false ∧
    acquiresLock advancedUserSearchUpdateSteps = false ∧
    acquiresLock advancedUserSearchDeleteSteps = false ∧
    acquiresLock appInstallerReadSteps = false ∧
    acquiresLock appInstallerUpdateSteps = false ∧
    acquiresLock appInstallerDeleteSteps = false := by
  refine ⟨?_, by decide, by decide, by decide, by decide, by decide, by decide,
    by decide, by decide, by decide, by decide, by decide, by decide⟩
  intro n s hreach t u ht hu
  have hinv := lockInvariant_reachable hreach
  have h1 := hinv t ht
  have h2 := hinv u hu
  rw [h1] at h2
  exact Option.some.inj h2

/-- Witness for claim C7: a concrete two-thread reachable state with thread 0
inside the guarded body. -/
theorem C7_single_mutex_witness : (0 : Fin 2) = 0 := by
  refine C7_single_mutex.1 2 _ (Relation.ReflTransGen.single
    (MutexStep.exec 0 (initSystem 2) CreateStep.lockMutex rfl (fun _ => rfl)
      (fun h => nomatch h))) 0 0 ?_ ?_ <;> exact ⟨by decide, by decide⟩

/-- Counterexample to claim C9: an update whose by-ID call (and even by-name
call) succeeds still returns an error to the caller when the post-update
read-back fails, so errors are not confined to the case where both API calls
fail. -/
theorem C9_counterexample :
    hasError (ResourceJamfProComputerExtensionAttributesUpdate dEx
        (Except.ok aCreatedEx) (Except.ok aCreatedEx) badReadOracle 1).2 = true := by
  decide

/-- Claim C9 (amended): each computer extension attribute operation falls back
to the by-name call when the by-ID call fails: a read attempt fails only when
both fetches fail and the read errors only when every attempt in the budget
fails; the update and delete remote calls error exactly when both the by-ID
and the by-name calls fail, though an update whose remote call succeeded may
still surface read-back errors afterwards. -/
theorem C9_by_name_fallback (d : ResourceData) (m : Int)
    (hid : goAtoi d.id = some m) (oracle : Nat → ReadAttemptReplies) (N : Nat)
    (un : Except ApiError ComputerExtensionAttributeResponse)
    (ro : Nat → Nat → ReadAttemptReplies) (e e2 : ApiError)
    (u : ComputerExtensionAttributeResponse) (db dn : Option ApiError) :
    (∀ r : ReadAttemptReplies,
      replySuccess (fetchAttempt r) = false ↔
        (replySuccess r.byID = false ∧ replySuccess r.byName = false)) ∧
    (hasError (ResourceJamfProComputerExtensionAttributesRead d oracle N).2 = true ↔
      ∀ j, j < N → replySuccess (fetchAttempt (oracle j)) = false) ∧
    ResourceJamfProComputerExtensionAttributesUpdate d (Except.error e)
        (Except.error e2) ro N =
      (d, [⟨DiagSeverity.diagError, e2.msg⟩]) ∧
    ResourceJamfProComputerExtensionAttributesUpdate d (Except.error e)
        (Except.ok u) ro N =
      readBackLoop updateRetryWarning ro N { d with id := toString u.ID } [] 0 N ∧
    ResourceJamfProComputerExtensionAttributesUpdate d (Except.ok u) un ro N =
      readBackLoop updateRetryWarning ro N { d with id := toString u.ID } [] 0 N ∧
    (hasError (ResourceJamfProComputerExtensionAttributesDelete d db dn).2 = true ↔
      (db.isSome = true ∧ dn.isSome = true)) := by
  refine ⟨?_, ceaRead_hasError_iff d oracle N m hid, ?_, ?_, ?_, ?_⟩
  · intro r
    cases hb : r.byID with
    | fail e3 => simp [fetchAttempt, hb, replySuccess]
    | ok v =>
      cases v with
      | none => simp [fetchAttempt, hb, replySuccess]
      | some a2 => simp [fetchAttempt, hb, replySuccess]
  · simp [ResourceJamfProComputerExtensionAttributesUpdate, hid]
  · simp [ResourceJamfProComputerExtensionAttributesUpdate, hid]
  · simp [ResourceJamfProComputerExtensionAttributesUpdate, hid]
  · cases db with
    | none =>
      simp [ResourceJamfProComputerExtensionAttributesDelete, hid, hasError]
    | some e3 =>
      cases dn with
      | none =>
        simp [ResourceJamfProComputerExtensionAttributesDelete, hid, hasError]
      | some e4 =>
        simp [ResourceJamfProComputerExtensionAttributesDelete, hid, hasError]

/-- Witness for claim C9 at concrete inputs: an update whose by-ID call fails
surfaces the by-name error only after the fallback also fails, and a delete
errors when both calls fail. -/
theorem C9_by_name_fallback_witness :
    ResourceJamfProComputerExtensionAttributesUpdate dEx (Except.error transientErr)
        (Except.error { notFound := false, msg := "name fail" }) goodReadOracle 1 =
      (dEx, [⟨DiagSeverity.diagError, "name fail"⟩]) ∧
    hasError (ResourceJamfProComputerExtensionAttributesDelete dEx
        (some transientErr) (some transientErr)).2 = true := by
  have h := C9_by_name_fallback dEx 7 rfl (fun _ => goodReplies) 1
      (Except.ok aCreatedEx) goodReadOracle transientErr
      { notFound := false, msg := "name fail" } aCreatedEx
      (some transientErr) (some transientErr)
  exact ⟨h.2.2.1, h.2.2.2.2.2.mpr ⟨rfl, rfl⟩⟩

/-- Claim C10: for both modelled delete handlers the stored ID is cleared
exactly when the remote deletion succeeds (directly, via the by-name fallback,
or within the retry budget); on failure an error is returned and the state,
including the stored ID, is unchanged. -/
theorem C10_delete_clears_id (d : ResourceData) (m : Int)
    (hid : goAtoi d.id = some m) (db dn : Option ApiError)
    (dA : AUSResourceData) (mA : Int) (hidA : goAtoi dA.id = some mA)
    (attempts : List DeleteAttemptReplies) :
    ((ResourceJamfProComputerExtensionAttributesDelete d db dn).1.id = "" ↔
      (db = none ∨ dn = none)) ∧
    (hasError (ResourceJamfProComputerExtensionAttributesDelete d db dn).2 = true ↔
      ¬(db = none ∨ dn = none)) ∧
    (¬(db = none ∨ dn = none) →
      (ResourceJamfProComputerExtensionAttributesDelete d db dn).1 = d) ∧
    ((resourceJamfProAdvancedUserSearchDelete dA attempts).1.id = "" ↔
      attempts.any deleteAttemptOk = true) ∧
    (hasError (resourceJamfProAdvancedUserSearchDelete dA attempts).2 = true ↔
      attempts.any deleteAttemptOk = false) ∧
    (attempts.any deleteAttemptOk = false →
      (resourceJamfProAdvancedUserSearchDelete dA attempts).1 = dA) := by
  have hzero : goAtoi "" = none := by decide
  have hne : d.id ≠ "" := by
    intro h
    rw [h, hzero] at hid
    simp at hid
  have hneA : dA.id ≠ "" := by
    intro h
    rw [h, hzero] at hidA
    simp at hidA
  refine ⟨?_, ?_, ?_, ?_, ?_, ?_⟩
  · cases db with
    | none => simp [ResourceJamfProComputerExtensionAttributesDelete, hid]
    | some e1 =>
      cases dn with
      | none => simp [ResourceJamfProComputerExtensionAttributesDelete, hid]
      | some e2 =>
        simp [ResourceJamfProComputerExtensionAttributesDelete, hid, hne]
  · cases db with
    | none =>
      simp [ResourceJamfProComputerExtensionAttributesDelete, hid, hasError]
    | some e1 =>
      cases dn with
      | none =>
        simp [ResourceJamfProComputerExtensionAttributesDelete, hid, hasError]
      | some e2 =>
        simp [ResourceJamfProComputerExtensionAttributesDelete, hid, hasError]
  · intro hfail
    cases db with
    | none => exact absurd (Or.inl rfl) hfail
    | some e1 =>
      cases dn with
      | none => exact absurd (Or.inr rfl) hfail
      | some e2 =>
        simp [ResourceJamfProComputerExtensionAttributesDelete, hid]
  · cases hany : attempts.any deleteAttemptOk with
    | true =>
      have hl : ausDeleteLoop attempts = none :=
        (ausDeleteLoop_none_iff attempts).mpr hany
      simp [resourceJamfProAdvancedUserSearchDelete, hidA, hl]
    | false =>
      cases hl : ausDeleteLoop attempts with
      | none =>
        have h1 := (ausDeleteLoop_none_iff attempts).mp hl
        rw [h1] at hany
        cases hany
      | some e1 =>
        simp [resourceJamfProAdvancedUserSearchDelete, hidA, hl, hneA]
  · cases hany : attempts.any deleteAttemptOk with
    | true =>
      have hl : ausDeleteLoop attempts = none :=
        (ausDeleteLoop_none_iff attempts).mpr hany
      simp [resourceJamfProAdvancedUserSearchDelete, hidA, hl, hasError]
    | false =>
      cases hl : ausDeleteLoop attempts with
      | none =>
        have h1 := (ausDeleteLoop_none_iff attempts).mp hl
        rw [h1] at hany
        cases hany
      | some e1 =>
        simp [resourceJamfProAdvancedUserSearchDelete, hidA, hl, hasError]
  · intro hfail
    cases hl : ausDeleteLoop attempts with
    | none =>
      have h1 := (ausDeleteLoop_none_iff attempts).mp hl
      rw [h1] at hfail
      cases hfail
    | some e1 =>
      simp [resourceJamfProAdvancedUserSearchDelete, hidA, hl]

/-- Witness for claim C10 at concrete inputs: a by-ID success and a
fallback-only success both clear the stored ID. -/
theorem C10_delete_clears_id_witness :
    (ResourceJamfProComputerExtensionAttributesDelete dEx none
        (some transientErr)).1.id = "" ∧
    (resourceJamfProAdvancedUserSearchDelete ausEx
        [{ byID := some transientErr, byName := none }]).1.id = "" := by
  have h := C10_delete_clears_id dEx 7 rfl none (some transientErr) ausEx 9 rfl
      [{ byID := some transientErr, byName := none }]
  exact ⟨h.1.mpr (Or.inl rfl), h.2.2.2.1.mpr rfl⟩
